import Mathlib

/-!
Verification development for the ebook-formatter text-structuring and
rendering pipeline.  Strings are modelled as lists of characters; the
JavaScript string operations used by the source (split, trim, toLowerCase,
regex tests of the concrete anchored patterns appearing in the code,
global character replacement) are embedded as executable Lean functions.
JavaScript truthiness of optional strings/booleans is modelled explicitly.
-/

namespace Ebook

abbrev Str := List Char

def str (x : String) : Str := x.data

/-- JS whitespace (ASCII fragment): the characters \s and trim() act on here. -/
def isWS (c : Char) : Bool :=
  c = ' ' || c = '\t' || c = '\n' || c = '\r' || c = '\x0b' || c = '\x0c'

/-- JS String.prototype.trim. -/
def trim (x : Str) : Str :=
  (((x.dropWhile isWS).reverse).dropWhile isWS).reverse

/-- JS String.prototype.split with a one-character separator. -/
def splitOnChar (q : Char) : Str → List Str
  | [] => [[]]
  | c :: rest =>
    match splitOnChar q rest with
    | [] => if c = q then [[], []] else [[c]]
    | h :: t => if c = q then [] :: h :: t else (c :: h) :: t

/-- JS toLowerCase (ASCII model). -/
def lowerStr (x : Str) : Str := x.map Char.toLower

/-- JS toUpperCase (ASCII model). -/
def upperStr (x : Str) : Str := x.map Char.toUpper

def hasChar (c : Char) : Str → Bool
  | [] => false
  | d :: rest => if d = c then true else hasChar c rest

/-- Whether pat occurs as a contiguous substring. -/
def isSubstr (pat : Str) : Str → Bool
  | [] => pat.isEmpty
  | c :: rest => pat.isPrefixOf (c :: rest) || isSubstr pat rest

/-- JS object property read, modelled as first-match association lookup. -/
def jsGet (m : List (Str × Str)) (k : Str) : Option Str :=
  (m.find? (fun p => p.1 = k)).map (fun p => p.2)

/-- JS `x || dflt` for a string x (empty string is falsy). -/
def jsOrStr (x : Str) (dflt : Str) : Str := if x.isEmpty then dflt else x

/-- JS `x || dflt` for an optional string (undefined and "" are falsy). -/
def jsOrOptStr (x : Option Str) (dflt : Str) : Str :=
  match x with
  | some s => if s.isEmpty then dflt else s
  | none => dflt

/-- JS template interpolation of a possibly-undefined string. -/
def interpOpt (x : Option Str) : Str :=
  match x with
  | some s => s
  | none => str "undefined"

/-- Truthiness of an optional string. -/
def optStrTruthy (x : Option Str) : Bool :=
  match x with
  | some s => !s.isEmpty
  | none => false

/-- Truthiness of an optional boolean. -/
def optBoolTruthy (x : Option Bool) : Bool :=
  match x with
  | some b => b
  | none => false

/-- JS `level || 1` for an optional number (undefined and 0 are falsy). -/
def jsOrLevel (x : Option Nat) : Nat :=
  match x with
  | some n => if n = 0 then 1 else n
  | none => 1

/-- Consume an exact literal (case-sensitive); returns the rest on success. -/
def dropLit : Str → Str → Option Str
  | [], x => some x
  | _ :: _, [] => none
  | c :: cs, d :: ds => if d = c then dropLit cs ds else none

/-- Consume an exact literal case-insensitively (pattern given lowercase). -/
def dropLitCI : Str → Str → Option Str
  | [], x => some x
  | _ :: _, [] => none
  | c :: cs, d :: ds => if d.toLower = c then dropLitCI cs ds else none

/-- Consume \s+ (one or more whitespace characters, greedily). -/
def dropWs1 : Str → Option Str
  | [] => none
  | c :: rest => if isWS c then some (rest.dropWhile isWS) else none

/-- Consume \d+ greedily. -/
def dropDigits1 : Str → Option Str
  | [] => none
  | c :: rest => if c.isDigit then some (rest.dropWhile Char.isDigit) else none

def isRomanChar (c : Char) : Bool :=
  c = 'i' || c = 'v' || c = 'x' || c = 'l' || c = 'c' || c = 'd' || c = 'm'

/-- Consume [ivxlcdm]+ greedily (on lowercased input). -/
def dropRoman1 : Str → Option Str
  | [] => none
  | c :: rest => if isRomanChar c then some (rest.dropWhile isRomanChar) else none

end Ebook

namespace Ebook

/-! Structure detector of the parser module (parseText and its helpers). -/

inductive BlockType where
  | chapter
  | paragraph
  | image
  deriving DecidableEq, Repr

structure ContentBlock where
  type : BlockType
  content : Str
  level : Option Nat := none
  imageUrl : Option Str := none
  imageAlt : Option Str := none
  fullPage : Option Bool := none
  deriving DecidableEq, Repr

/-- One bracket pattern of isImagePlaceholder: the anchored regex
of shape start, bracket, the tag case-insensitively, a colon, one or more
characters other than a closing bracket, a closing bracket, end —
tested against the trimmed line. -/
def bracketTag (tag : Str) (line : Str) : Bool :=
  match trim line with
  | [] => false
  | c :: rest =>
    if c = '[' then
      match dropLitCI tag rest with
      | some (':' :: r2) =>
        let content := r2.takeWhile (fun d => !(d = ']'))
        !content.isEmpty && decide (r2.dropWhile (fun d => !(d = ']')) = [']'])
      | _ => false
    else false

def isImagePlaceholder (line : Str) : Bool :=
  bracketTag (str "image") line || bracketTag (str "fullpage") line ||
  bracketTag (str "img") line || bracketTag (str "chapter-image") line

structure ImageData where
  url : Str
  alt : Str
  fullPage : Bool
  deriving DecidableEq, Repr

/-- The generic bracket match of parseImagePlaceholder: tag up to the first
colon, content up to the closing bracket which must end the string. -/
def matchBracketGeneric (t : Str) : Option (Str × Str) :=
  match t with
  | '[' :: rest =>
    let tag := rest.takeWhile (fun c => !(c = ':'))
    if tag.isEmpty then none
    else
      match rest.dropWhile (fun c => !(c = ':')) with
      | ':' :: r2 =>
        let content := r2.takeWhile (fun c => !(c = ']'))
        if content.isEmpty then none
        else if r2.dropWhile (fun c => !(c = ']')) = [']'] then some (tag, content)
        else none
      | _ => none
  | _ => none

def parseImagePlaceholder (line : Str) : ImageData :=
  let t := trim line
  match matchBracketGeneric t with
  | none => ⟨[], str "Image", false⟩
  | some (ty, content) =>
    let isFullPage :=
      upperStr ty = str "FULLPAGE" || upperStr ty = str "CHAPTER-IMAGE"
    let alt0 :=
      if hasChar '.' content then
        let filename := jsOrStr ((splitOnChar '/' content).getLastD []) content
        ((filename.takeWhile (fun c => !(c = '.'))).map
          (fun c => if c = '-' || c = '_' then ' ' else c))
      else content
    let alt :=
      match alt0 with
      | [] => []
      | c :: rest => c.toUpper :: rest
    ⟨content, alt, isFullPage⟩

/-- Prefix match for the pattern start, chapter, \s+, \d+ (on lowercased input). -/
def reChapterNum (s : Str) : Bool :=
  ((dropLit (str "chapter") s).bind dropWs1 |>.bind dropDigits1).isSome

def reChapterRoman (s : Str) : Bool :=
  ((dropLit (str "chapter") s).bind dropWs1 |>.bind dropRoman1).isSome

def reChNum (s : Str) : Bool :=
  ((dropLit (str "ch") s).bind dropWs1 |>.bind dropDigits1).isSome

/-- Prefix match for \d+, a dot, then one whitespace character. -/
def reNumDotWs (s : Str) : Bool :=
  let ds := s.takeWhile Char.isDigit
  match ds, s.drop ds.length with
  | _ :: _, '.' :: c :: _ => isWS c
  | _, _ => false

def rePartNum (s : Str) : Bool :=
  ((dropLit (str "part") s).bind dropWs1 |>.bind dropDigits1).isSome

def rePartRoman (s : Str) : Bool :=
  ((dropLit (str "part") s).bind dropWs1 |>.bind dropRoman1).isSome

def reBookNum (s : Str) : Bool :=
  ((dropLit (str "book") s).bind dropWs1 |>.bind dropDigits1).isSome

def reBookRoman (s : Str) : Bool :=
  ((dropLit (str "book") s).bind dropWs1 |>.bind dropRoman1).isSome

/-- Anchored match for about, \s+, the, \s+, author. -/
def reAboutAuthor (s : Str) : Bool :=
  (((dropLit (str "about") s).bind dropWs1 |>.bind (dropLit (str "the"))
    |>.bind dropWs1 |>.bind (dropLit (str "author"))) = some [])

def reAckAbout (s : Str) : Bool :=
  s = str "acknowledgment" || s = str "acknowledgments" ||
  s = str "acknowledgement" || s = str "acknowledgements" ||
  reAboutAuthor s

def chapterPatternsMatch (lineLower : Str) : Bool :=
  reChapterNum lineLower || reChapterRoman lineLower || reChNum lineLower ||
  reNumDotWs lineLower ||
  lineLower = str "prologue" || lineLower = str "epilogue" ||
  lineLower = str "introduction" || lineLower = str "preface" ||
  lineLower = str "acknowledgment" || lineLower = str "acknowledgments" ||
  lineLower = str "acknowledgement" || lineLower = str "acknowledgements" ||
  reAboutAuthor lineLower ||
  rePartRoman lineLower || rePartNum lineLower ||
  reBookRoman lineLower || reBookNum lineLower

def endsWithChar (c : Char) (s : Str) : Bool :=
  match s.getLast? with
  | some d => d = c
  | none => false

def isChapterHeading (line : Str) : Bool :=
  let lineLower := lowerStr (trim line)
  chapterPatternsMatch lineLower ||
  (decide (line = upperStr line) && decide (line.length < 50)) ||
  (decide (line.length < 100) && !endsWithChar '.' line && !endsWithChar ',' line &&
    ([str "chapter", str "prologue", str "epilogue", str "part", str "book"].any
      (fun w => isSubstr w lineLower)))

def getHeadingLevel (line : Str) : Nat :=
  let lineLower := lowerStr (trim line)
  if reChapterNum lineLower then 1
  else if ((dropLit (str "part") lineLower <|> dropLit (str "book") lineLower).bind
            dropWs1).isSome then 1
  else if lineLower = str "prologue" || lineLower = str "epilogue" then 1
  else if lineLower = str "introduction" || lineLower = str "preface" then 2
  else if reAckAbout lineLower then 3
  else 1

/-- The body of parseText's per-line loop, applied to the trimmed line. -/
def classifyLineP6 (trimmedLine : Str) : ContentBlock :=
  if isImagePlaceholder trimmedLine then
    let d := parseImagePlaceholder trimmedLine
    { type := .image
      content := jsOrStr d.alt (str "Full page image")
      imageUrl := some d.url
      imageAlt := some d.alt
      fullPage := some d.fullPage }
  else if isChapterHeading trimmedLine then
    { type := .chapter
      content := trimmedLine
      level := some (getHeadingLevel trimmedLine) }
  else
    { type := .paragraph, content := trimmedLine }

def parseText (text : Str) : List ContentBlock :=
  if (trim text).isEmpty then []
  else
    (splitOnChar '\n' (trim text)).filterMap (fun line =>
      let t := trim line
      if t.isEmpty then none else some (classifyLineP6 t))

end Ebook

namespace Ebook

/-! The enhanced text formatting engine (TextFormatter). -/

inductive SType where
  | title
  | chapter
  | paragraph
  | image
  | spacer
  deriving DecidableEq, Repr

structure SectionMeta where
  number : Option Str := none
  title : Option Str := none
  isFullPage : Option Bool := none
  filename : Option Str := none
  deriving DecidableEq, Repr

structure FormattedSection where
  type : SType
  content : Str
  level : Option Nat := none
  metadata : Option SectionMeta := none
  deriving DecidableEq, Repr

end Ebook

namespace Ebook.TextFormatter

open Ebook

/-- Capture \d+ greedily: (captured digits, rest). -/
def takeDigits1 (x : Str) : Option (Str × Str) :=
  match x with
  | [] => none
  | c :: rest =>
    if c.isDigit then
      some (c :: rest.takeWhile Char.isDigit, rest.dropWhile Char.isDigit)
    else none

/-- Capture [ivxlcdm]+ case-insensitively, keeping the original text. -/
def takeRoman1CI (x : Str) : Option (Str × Str) :=
  match x with
  | [] => none
  | c :: rest =>
    if isRomanChar c.toLower then
      some (c :: rest.takeWhile (fun d => isRomanChar d.toLower),
            rest.dropWhile (fun d => isRomanChar d.toLower))
    else none

/-- Capture an exact word case-insensitively, keeping the original text. -/
def takeWordCI (w : Str) (x : Str) : Option (Str × Str) :=
  if lowerStr (x.take w.length) = w then some (x.take w.length, x.drop w.length)
  else none

def isSep (c : Char) : Bool :=
  c = ':' || c = '-' || c = '–' || c = '—'

/-- The optional tail group of shape \s* separator \s* rest, anchored at the
end: at the end of input both groups are undefined; otherwise the group must
match or the whole pattern fails.  Returns (group2, group3). -/
def sepTail (r : Str) : Option (Option Str × Option Str) :=
  match r with
  | [] => some (none, none)
  | _ :: _ =>
    match r.dropWhile isWS with
    | c :: rest =>
      if isSep c then some (some r, some (rest.dropWhile isWS)) else none
    | [] => none

/-- JS `match[3] || match[2]?.trim()` building the chapter title. -/
def jsTitleOf (g2 g3 : Option Str) : Option Str :=
  match g3 with
  | some t => if t.isEmpty then (g2.map trim) else some t
  | none => g2.map trim

def altNumWordP1 (r : Str) : Option (Str × Str) :=
  takeDigits1 r <|> takeWordCI (str "one") r <|> takeWordCI (str "two") r <|>
  takeWordCI (str "three") r <|> takeWordCI (str "four") r <|>
  takeWordCI (str "five") r <|> takeWordCI (str "six") r <|>
  takeWordCI (str "seven") r <|> takeWordCI (str "eight") r <|>
  takeWordCI (str "nine") r <|> takeWordCI (str "ten") r

/-- Pattern: chapter, a number or spelled-out number, optional separator
and subtitle (case-insensitive, anchored). -/
def matchP1 (x : Str) : Option (Str × Option Str × Option Str) := do
  let r1 ← dropLitCI (str "chapter") x
  let r2 ← dropWs1 r1
  let (g1, r3) ← altNumWordP1 r2
  let (g2, g3) ← sepTail r3
  pure (g1, g2, g3)

/-- Pattern: chapter with roman numerals. -/
def matchP2 (x : Str) : Option (Str × Option Str × Option Str) := do
  let r1 ← dropLitCI (str "chapter") x
  let r2 ← dropWs1 r1
  let (g1, r3) ← takeRoman1CI r2
  let (g2, g3) ← sepTail r3
  pure (g1, g2, g3)

/-- Pattern: digits, a dot, optional whitespace and title (anchored; the
optional group always participates, capturing the rest). -/
def matchP3 (x : Str) : Option (Str × Option Str × Option Str) :=
  match takeDigits1 x with
  | some (g1, r) =>
    match r with
    | '.' :: rest => some (g1, some rest, some (rest.dropWhile isWS))
    | _ => none
  | none => none

def altP4 (r : Str) : Option (Str × Str) :=
  takeDigits1 r <|> takeRoman1CI r <|> takeWordCI (str "one") r <|>
  takeWordCI (str "two") r <|> takeWordCI (str "three") r

/-- Pattern: part indicators. -/
def matchP4 (x : Str) : Option (Str × Option Str × Option Str) := do
  let r1 ← dropLitCI (str "part") x
  let r2 ← dropWs1 r1
  let (g1, r3) ← altP4 r2
  let (g2, g3) ← sepTail r3
  pure (g1, g2, g3)

/-- Pattern: section indicators. -/
def matchP5 (x : Str) : Option (Str × Option Str × Option Str) := do
  let r1 ← dropLitCI (str "section") x
  let r2 ← dropWs1 r1
  let (g1, r3) ← takeDigits1 r2
  let (g2, g3) ← sepTail r3
  pure (g1, g2, g3)

structure ChapterMatch where
  level : Nat
  number : Str
  title : Option Str
  deriving DecidableEq, Repr

/-- The pattern loop of detectChapter: the first matching pattern yields
level 1 with the captured number and title. -/
def detectChapter (text : Str) : Option ChapterMatch :=
  (matchP1 text <|> matchP2 text <|> matchP3 text <|> matchP4 text <|>
    matchP5 text).map
    (fun g => ⟨1, g.1, jsTitleOf g.2.1 g.2.2⟩)

/-- The title-case ratio check.  The source compares the floating-point
quotient count/total against the literal 0.7; for the denominators reachable
here (a line shorter than 80 characters) no rational count/total lies within
double rounding error of 0.7 except multiples of 7/10 themselves, so the
comparison is exactly the rational one, modelled as 10*count > 7*total. -/
def titleCaseRatioOk (text : Str) : Bool :=
  let words := splitOnChar ' ' text
  let titleCaseWords := words.filter (fun w =>
    match w with
    | c :: _ => c = c.toUpper
    | [] => false)
  decide (10 * titleCaseWords.length > 7 * words.length) && decide (text.length < 80)

def isTitle (text : Str) (index : Nat) (lines : List Str) : Bool :=
  if index = 0 then true
  else if decide (text = upperStr text) && decide (text.length < 100) then true
  else if decide (text.length < 60) &&
      !(endsWithChar '.' text || endsWithChar '!' text || endsWithChar '?' text) then
    match lines.get? (index + 1) with
    | none => true
    | some nl0 =>
      let nextLine := trim nl0
      if nextLine.isEmpty then true
      else if decide (nextLine.length < 60) then true
      else titleCaseRatioOk text
  else titleCaseRatioOk text

def getTitleLevel (text : Str) : Nat :=
  if text = upperStr text then 1
  else if text.length < 30 then 2
  else 3

def collapseWSAux : Bool → Str → Str
  | _, [] => []
  | prevWs, c :: rest =>
    if isWS c then
      (if prevWs then collapseWSAux true rest else ' ' :: collapseWSAux true rest)
    else c :: collapseWSAux false rest

/-- Global replacement of whitespace runs by single spaces. -/
def collapseWS (s : Str) : Str := collapseWSAux false s

/-- Global replacement pairing occurrences of a quote character left to
right, given the input split on that character. -/
def pairQuotes (q lq rq : Char) : List Str → Str
  | [] => []
  | [p] => p
  | [p, plast] => p ++ q :: plast
  | p :: inner :: rest => p ++ lq :: inner ++ rq :: pairQuotes q lq rq rest

/-- Global replacement of whitespace, two hyphens, whitespace by an em dash. -/
def emDash : Str → Str
  | a :: b :: c :: d :: rest =>
    if isWS a && b = '-' && c = '-' && isWS d then '—' :: emDash rest
    else a :: emDash (b :: c :: d :: rest)
  | s => s

/-- Global replacement of whitespace, hyphen, whitespace by a spaced en dash. -/
def enDash : Str → Str
  | a :: b :: c :: rest =>
    if isWS a && b = '-' && isWS c then ' ' :: '–' :: ' ' :: enDash rest
    else a :: enDash (b :: c :: rest)
  | s => s

def emitDots (n : Nat) : Str := if n ≥ 3 then ['…'] else List.replicate n '.'

def ellipsisAux : Nat → Str → Str
  | n, [] => emitDots n
  | n, c :: rest =>
    if c = '.' then ellipsisAux (n + 1) rest
    else emitDots n ++ c :: ellipsisAux 0 rest

/-- Global replacement of runs of three or more dots by one ellipsis. -/
def ellipsisFmt (s : Str) : Str := ellipsisAux 0 s

def formatParagraph (text : Str) : Str :=
  let t1 := trim (collapseWS text)
  let t2 := pairQuotes '"' '“' '”' (splitOnChar '"' t1)
  let t3 := pairQuotes '\'' '‘' '’' (splitOnChar '\'' t2)
  let t4 := emDash t3
  let t5 := enDash t4
  ellipsisFmt t5

/-- The image-placeholder filename regex, tried at one scan position after
an opening bracket: a case-sensitive tag, a colon, then a lazy non-empty
capture up to the nearest closing bracket. -/
def imgTagAt (tag : Str) (rest : Str) : Option Str :=
  match dropLit tag rest with
  | some (':' :: r2) =>
    match r2 with
    | c0 :: r3 =>
      if (r3.dropWhile (fun c => !(c = ']'))).head? = some ']' then
        some (c0 :: r3.takeWhile (fun c => !(c = ']')))
      else none
    | [] => none
  | _ => none

/-- The unanchored scan of the filename regex over the line. -/
def imgKeySearch : Str → Option Str
  | [] => none
  | c :: rest =>
    if c = '[' then
      match imgTagAt (str "IMAGE") rest <|> imgTagAt (str "FULLPAGE") rest with
      | some k => some k
      | none => imgKeySearch rest
    else imgKeySearch rest

/-- The startsWith test guarding formatText's image branch. -/
def isImageMarker (t : Str) : Bool :=
  (str "[IMAGE:").isPrefixOf t || (str "[FULLPAGE:").isPrefixOf t

/-- The body of formatText's per-line loop. -/
def classifyLineFT (lines : List Str) (i : Nat) (line : Str) : FormattedSection :=
  let trimmed := trim line
  if trimmed.isEmpty then { type := .spacer, content := [] }
  else
    match detectChapter trimmed with
    | some cm =>
      { type := .chapter
        content := trimmed
        level := some cm.level
        metadata := some { number := some cm.number, title := cm.title } }
    | none =>
      if isTitle trimmed i lines then
        { type := .title, content := trimmed, level := some (getTitleLevel trimmed) }
      else if isImageMarker trimmed then
        { type := .image
          content := trimmed
          metadata := some { isFullPage := some ((str "[FULLPAGE:").isPrefixOf trimmed)
                             filename := imgKeySearch trimmed } }
      else
        { type := .paragraph, content := formatParagraph trimmed }

def formatText (rawText : Str) : List FormattedSection :=
  let lines := splitOnChar '\n' rawText
  lines.enum.map (fun p => classifyLineFT lines p.1 p.2)

def classicCSS : Str := str "\n        font-family: 'Georgia', 'Times New Roman', serif;\n        line-height: 1.6;\n        color: #2c2c2c;\n        max-width: 650px;\n        margin: 0 auto;\n      "

def modernCSS : Str := str "\n        font-family: -apple-system, BlinkMacSystemFont, 'Segoe UI', system-ui, sans-serif;\n        line-height: 1.7;\n        color: #333;\n        max-width: 700px;\n        margin: 0 auto;\n        letter-spacing: -0.01em;\n      "

def elegantCSS : Str := str "\n        font-family: 'Crimson Text', 'Georgia', serif;\n        line-height: 1.8;\n        color: #1a1a1a;\n        max-width: 600px;\n        margin: 0 auto;\n        font-size: 18px;\n      "

def scifiCSS : Str := str "\n        font-family: 'SF Mono', 'Monaco', 'Roboto Mono', monospace;\n        line-height: 1.5;\n        color: #0f172a;\n        max-width: 680px;\n        margin: 0 auto;\n        letter-spacing: 0.02em;\n      "

/-- Template lookup with the source's silent fallback to the modern styles. -/
def getTemplateCSS (template : Str) : Str :=
  if template = str "classic" then classicCSS
  else if template = str "modern" then modernCSS
  else if template = str "elegant" then elegantCSS
  else if template = str "scifi" then scifiCSS
  else modernCSS

def renderHTMLSection (uploadedImages : List (Str × Str))
    (sec : FormattedSection) : Str :=
  match sec.type with
  | .title =>
    let titleLevel := jsOrLevel sec.level
    let titleTag :=
      if titleLevel = 1 then str "h1" else if titleLevel = 2 then str "h2"
      else str "h3"
    '<' :: titleTag ++ '>' :: sec.content ++ '<' :: '/' :: titleTag ++ ['>']
  | .chapter => str "<h2>" ++ sec.content ++ str "</h2>"
  | .paragraph => str "<p>" ++ sec.content ++ str "</p>"
  | .image =>
    let isFullPage := sec.metadata.bind SectionMeta.isFullPage
    let filename := sec.metadata.bind SectionMeta.filename
    match filename with
    | some f =>
      if f.isEmpty then []
      else
        match jsGet uploadedImages f with
        | some v =>
          if v.isEmpty then []
          else
            let imageClass :=
              if optBoolTruthy isFullPage then str "image-fullpage"
              else str "image-inline"
            str "<img src=\"" ++ v ++ str "\" alt=\"" ++ f ++ str "\" class=\"" ++
              imageClass ++ str "\" />"
        | none => []
    | none => []
  | .spacer => str "<div class=\"spacer\"></div>"

def renderToHTML (template : Str) (sections : List FormattedSection)
    (uploadedImages : List (Str × Str) := []) : Str :=
  str "<div class=\"template-" ++ template ++ str "\">" ++
  (sections.map (renderHTMLSection uploadedImages)).flatten ++ str "</div>"

def mdSection (sec : FormattedSection) : Str :=
  match sec.type with
  | .title => List.replicate (jsOrLevel sec.level) '#' ++ ' ' :: sec.content
  | .chapter => str "## " ++ sec.content
  | .paragraph => sec.content
  | .image =>
    let filename := sec.metadata.bind SectionMeta.filename
    let isFullPage := sec.metadata.bind SectionMeta.isFullPage
    str "![" ++ jsOrOptStr filename (str "Image") ++ str "](" ++
      interpOpt filename ++ str ")" ++
      (if optBoolTruthy isFullPage then str " \x7b.full-page\x7d" else [])
  | .spacer => []

def exportAsMarkdown (sections : List FormattedSection) : Str :=
  List.intercalate (str "\n\n") (sections.map mdSection)

def textSection (sec : FormattedSection) : Str :=
  match sec.type with
  | .title =>
    upperStr sec.content ++ '\n' :: List.replicate sec.content.length '='
  | .chapter =>
    str "\n\n" ++ sec.content ++ '\n' :: List.replicate sec.content.length '-'
  | .paragraph => sec.content
  | .image =>
    str "[Image: " ++
      jsOrOptStr (sec.metadata.bind SectionMeta.filename)
        (str "Image placeholder") ++ str "]"
  | .spacer => []

def exportAsText (sections : List FormattedSection) : Str :=
  List.intercalate (str "\n\n") (sections.map textSection)

end Ebook.TextFormatter

namespace Ebook.ExportUtility

open Ebook

/-- Global replacement of one character by a string. -/
def replaceChar (c : Char) (r : Str) : Str → Str
  | [] => []
  | d :: rest => if d = c then r ++ replaceChar c r rest else d :: replaceChar c r rest

/-- The JSX escaper: sequential global replacements of ampersand, angle
brackets, double quote and braces, in source order. -/
def escapeJSX (text : Str) : Str :=
  replaceChar '}' (str "&#125;")
    (replaceChar '{' (str "&#123;")
      (replaceChar '"' (str "&quot;")
        (replaceChar '>' (str "&gt;")
          (replaceChar '<' (str "&lt;")
            (replaceChar '&' (str "&amp;") text)))))

/-- The HTML escaper used by the DOCX-compatible export. -/
def escapeHTML (text : Str) : Str :=
  replaceChar '\'' (str "&#39;")
    (replaceChar '"' (str "&quot;")
      (replaceChar '>' (str "&gt;")
        (replaceChar '<' (str "&lt;")
          (replaceChar '&' (str "&amp;") text))))

/-- Decimal rendering of a number interpolated into a template string. -/
def natStrGo : Nat → Nat → Str → Str
  | 0, _, acc => acc
  | fuel + 1, n, acc =>
    let d := Char.ofNat (48 + n % 10)
    if n < 10 then d :: acc else natStrGo fuel (n / 10) (d :: acc)

def natStr (n : Nat) : Str := natStrGo (n + 1) n []

def sanitizeComponentName (name : Str) : Str :=
  let s1 := name.filter (fun c => c.isAlpha || c.isDigit)
  let s2 :=
    match s1 with
    | c :: rest => if c.isAlpha then c :: rest else str "Component" ++ rest
    | [] => []
  match s2 with
  | c :: rest => if c.isAlpha || c.isDigit || c = '_' then c.toUpper :: rest else c :: rest
  | [] => []

structure ExportMeta where
  title : Option Str := none
  author : Option Str := none
  description : Option Str := none
  deriving DecidableEq, Repr

structure ExportOptions where
  format : Str
  filename : Option Str := none
  template : Str
  sections : List FormattedSection
  uploadedImages : List (Str × Str) := []
  metadata : Option ExportMeta := none
  deriving DecidableEq, Repr

def jsxSection (uploadedImages : List (Str × Str)) (sec : FormattedSection) : Str :=
  match sec.type with
  | .title =>
    let level := jsOrLevel sec.level
    let tag := if level = 1 then str "h1" else if level = 2 then str "h2" else str "h3"
    str "      <" ++ tag ++ str " className=\"title level-" ++ natStr level ++
      str "\" style=\x7btitleStyles.level" ++ natStr level ++ str "\x7d>\n" ++
      str "        " ++ escapeJSX sec.content ++ str "\n" ++
      str "      </" ++ tag ++ str ">\n"
  | .chapter =>
    str "      <h2 className=\"chapter\" style=\x7bchapterStyles\x7d>\n" ++
      str "        " ++ escapeJSX sec.content ++ str "\n" ++
      str "      </h2>\n"
  | .paragraph =>
    str "      <p className=\"paragraph\" style=\x7bparagraphStyles\x7d>\n" ++
      str "        " ++ escapeJSX sec.content ++ str "\n" ++
      str "      </p>\n"
  | .image =>
    let isFullPage := sec.metadata.bind SectionMeta.isFullPage
    let filename := sec.metadata.bind SectionMeta.filename
    match filename with
    | some f =>
      if f.isEmpty then []
      else
        match jsGet uploadedImages f with
        | some v =>
          if v.isEmpty then []
          else
            let className :=
              if optBoolTruthy isFullPage then str "image-fullpage"
              else str "image-inline"
            str "      <img \n" ++
              str "        src=\"" ++ v ++ str "\" \n" ++
              str "        alt=\"" ++ f ++ str "\" \n" ++
              str "        className=\"" ++ className ++ str "\" \n" ++
              str "        style=\x7b" ++
              (if optBoolTruthy isFullPage then str "fullPageImageStyles"
               else str "inlineImageStyles") ++ str "\x7d \n" ++
              str "      />\n"
        | none => []
    | none => []
  | .spacer =>
    str "      <div className=\"spacer\" style=\x7bspacerStyles\x7d />\n"

def jsxSectionsPart (sections : List FormattedSection)
    (uploadedImages : List (Str × Str)) : Str :=
  (sections.map (jsxSection uploadedImages)).flatten

def generateJSXStyles : Str :=
  str "const documentStyles = \x7b\n  fontFamily: '-apple-system, BlinkMacSystemFont, \"Segoe UI\", system-ui, sans-serif',\n  lineHeight: 1.7,\n  color: '#333',\n  maxWidth: '700px',\n  margin: '0 auto',\n  padding: '2rem'\n\x7d;\n\nconst titleStyles = \x7b\n  level1: \x7b\n    fontSize: '2.5em',\n    margin: '2em 0 1.5em 0',\n    textAlign: 'center',\n    fontWeight: 'bold'\n  \x7d,\n  level2: \x7b\n    fontSize: '2em',\n    margin: '1.5em 0 1em 0',\n    textAlign: 'center',\n    fontWeight: '600'\n  \x7d,\n  level3: \x7b\n    fontSize: '1.5em',\n    margin: '1.2em 0 0.8em 0',\n    fontWeight: '600'\n  \x7d\n\x7d;\n\nconst chapterStyles = \x7b\n  fontSize: '2.2em',\n  margin: '3em 0 2em 0',\n  textAlign: 'center',\n  fontWeight: 'bold',\n  borderBottom: '2px solid #e2e2e2',\n  paddingBottom: '0.5em'\n\x7d;\n\nconst paragraphStyles = \x7b\n  margin: '1.2em 0',\n  textAlign: 'justify',\n  textIndent: '1.5em'\n\x7d;\n\nconst fullPageImageStyles = \x7b\n  display: 'block',\n  maxWidth: '100%',\n  height: 'auto',\n  margin: '2em auto',\n  borderRadius: '8px',\n  boxShadow: '0 4px 12px rgba(0,0,0,0.15)'\n\x7d;\n\nconst inlineImageStyles = \x7b\n  float: 'left',\n  width: '200px',\n  height: '200px',\n  objectFit: 'cover',\n  margin: '0 1.5em 1em 0',\n  borderRadius: '6px',\n  boxShadow: '0 2px 8px rgba(0,0,0,0.1)'\n\x7d;\n\nconst spacerStyles = \x7b\n  height: '1.5em'\n\x7d;"

def defaultMeta : ExportMeta := ⟨none, none, none⟩

/-- The JSX component text built by the JSX exporter (the pure content that
would be handed to the download). -/
def exportAsJSXContent (opts : ExportOptions) : Str :=
  let metadata := opts.metadata.getD defaultMeta
  let componentName := sanitizeComponentName (jsOrOptStr metadata.title (str "Document"))
  str "import React from 'react';\n\n" ++
  str "const " ++ componentName ++ str " = () => \x7b\n" ++
  str "  return (\n" ++
  str "    <div className=\"document-container\" style=\x7bdocumentStyles\x7d>\n" ++
  jsxSectionsPart opts.sections opts.uploadedImages ++
  str "    </div>\n" ++
  str "  );\n" ++
  str "\x7d;\n\n" ++
  generateJSXStyles ++
  str "\nexport default " ++ componentName ++ str ";\n"

/-- The complete HTML document built by the HTML exporter. -/
def generateFullHTML (opts : ExportOptions) : Str :=
  let metadata := opts.metadata.getD defaultMeta
  let templateCSS := TextFormatter.getTemplateCSS opts.template
  let bodyHTML := TextFormatter.renderToHTML opts.template opts.sections opts.uploadedImages
  trim
    (str "\n<!DOCTYPE html>\n<html lang=\"en\">\n<head>\n    <meta charset=\"UTF-8\">\n    <meta name=\"viewport\" content=\"width=device-width, initial-scale=1.0\">\n    <title>" ++
     jsOrOptStr metadata.title (str "Document") ++
     str "</title>\n    <style>\n        body \x7b\n            " ++
     templateCSS ++
     str "\n            padding: 2rem;\n            max-width: 8.5in;\n            margin: 0 auto;\n            background: white;\n            font-size: 16px;\n        \x7d\n        \n        @media print \x7b\n            body \x7b\n                padding: 1in;\n                margin: 0;\n            \x7d\n        \x7d\n        \n        @page \x7b\n            margin: 1in;\n            size: letter;\n        \x7d\n    </style>\n</head>\n<body>\n    " ++
     bodyHTML ++
     str "\n</body>\n</html>\n    ")

def exportAsMarkdownContent (opts : ExportOptions) : Str :=
  let metadata := opts.metadata.getD defaultMeta
  let front :=
    if optStrTruthy metadata.title || optStrTruthy metadata.author ||
        optStrTruthy metadata.description then
      str "---\n" ++
      (if optStrTruthy metadata.title then
         str "title: \"" ++ interpOpt metadata.title ++ str "\"\n" else []) ++
      (if optStrTruthy metadata.author then
         str "author: \"" ++ interpOpt metadata.author ++ str "\"\n" else []) ++
      (if optStrTruthy metadata.description then
         str "description: \"" ++ interpOpt metadata.description ++ str "\"\n" else []) ++
      str "---\n\n"
    else []
  front ++ TextFormatter.exportAsMarkdown opts.sections

def exportAsTXTContent (opts : ExportOptions) : Str :=
  let metadata := opts.metadata.getD defaultMeta
  (if optStrTruthy metadata.title then
     upperStr (interpOpt metadata.title) ++ str "\n" ++
     List.replicate (interpOpt metadata.title).length '=' ++ str "\n\n"
   else []) ++
  (if optStrTruthy metadata.author then
     str "By " ++ interpOpt metadata.author ++ str "\n\n" else []) ++
  (if optStrTruthy metadata.description then
     interpOpt metadata.description ++ str "\n\n" else []) ++
  TextFormatter.exportAsText opts.sections

def docxSection (sec : FormattedSection) : Str :=
  match sec.type with
  | .title =>
    let level := jsOrLevel sec.level
    str "<h" ++ natStr level ++ str ">" ++ escapeHTML sec.content ++
      str "</h" ++ natStr level ++ str ">"
  | .chapter => str "<h2>" ++ escapeHTML sec.content ++ str "</h2>"
  | .paragraph => str "<p>" ++ escapeHTML sec.content ++ str "</p>"
  | .spacer => str "<p>&nbsp;</p>"
  | .image => []

/-- The Word-compatible HTML built by the DOCX exporter. -/
def generateDOCXCompatibleHTML (opts : ExportOptions) : Str :=
  let metadata := opts.metadata.getD defaultMeta
  str "\n<html xmlns:o=\"urn:schemas-microsoft-com:office:office\" xmlns:w=\"urn:schemas-microsoft-com:office:word\" xmlns=\"http://www.w3.org/TR/REC-html40\">\n<head>\n    <meta charset=\"utf-8\">\n    <title>" ++
  jsOrOptStr metadata.title (str "Document") ++
  str "</title>\n    <!--[if gte mso 9]>\n    <xml>\n        <w:WordDocument>\n            <w:View>Print</w:View>\n            <w:Zoom>90</w:Zoom>\n            <w:DoNotPromptForConvert/>\n            <w:DoNotShowInsertionsAndDeletions/>\n        </w:WordDocument>\n    </xml>\n    <![endif]-->\n    <style>\n        body \x7b font-family: Times New Roman, serif; font-size: 12pt; line-height: 1.5; \x7d\n        h1 \x7b font-size: 18pt; font-weight: bold; text-align: center; page-break-before: always; \x7d\n        h2 \x7b font-size: 16pt; font-weight: bold; text-align: center; page-break-before: always; \x7d\n        h3 \x7b font-size: 14pt; font-weight: bold; \x7d\n        p \x7b margin: 0; text-indent: 0.5in; text-align: justify; \x7d\n    </style>\n</head>\n<body>\n    " ++
  (opts.sections.map docxSection).flatten ++
  str "</body></html>"

/-- The dispatch of the main export function: each implemented format
produces its file content; any other format value is the thrown
unsupported-format error. -/
def exportRun (opts : ExportOptions) : Except Str Str :=
  if opts.format = str "html" then .ok (generateFullHTML opts)
  else if opts.format = str "jsx" then .ok (exportAsJSXContent opts)
  else if opts.format = str "markdown" then .ok (exportAsMarkdownContent opts)
  else if opts.format = str "txt" then .ok (exportAsTXTContent opts)
  else if opts.format = str "docx" then .ok (generateDOCXCompatibleHTML opts)
  else .error (str "Unsupported export format: " ++ opts.format)

end Ebook.ExportUtility

namespace Ebook

/-- A recognizer in the specification's sense: a predicate and a block
constructor, both seeing the trimmed line, its index and the full line list. -/
structure Recognizer where
  accepts : Str → Nat → List Str → Bool
  emit : Str → Nat → List Str → FormattedSection

def spacerSection : FormattedSection := { type := .spacer, content := [] }

def blankRec : Recognizer :=
  ⟨fun t _ _ => t.isEmpty, fun _ _ _ => spacerSection⟩

def chapterRec : Recognizer :=
  ⟨fun t _ _ => (TextFormatter.detectChapter t).isSome,
   fun t _ _ =>
     match TextFormatter.detectChapter t with
     | some cm =>
       { type := .chapter
         content := t
         level := some cm.level
         metadata := some { number := some cm.number, title := cm.title } }
     | none => spacerSection⟩

def titleRec : Recognizer :=
  ⟨fun t i lines => TextFormatter.isTitle t i lines,
   fun t _ _ =>
     { type := .title, content := t, level := some (TextFormatter.getTitleLevel t) }⟩

def imageRec : Recognizer :=
  ⟨fun t _ _ => TextFormatter.isImageMarker t,
   fun t _ _ =>
     { type := .image
       content := t
       metadata := some { isFullPage := some ((str "[FULLPAGE:").isPrefixOf t)
                          filename := TextFormatter.imgKeySearch t } }⟩

def paragraphFallback (t : Str) (_ : Nat) (_ : List Str) : FormattedSection :=
  { type := .paragraph, content := TextFormatter.formatParagraph t }

/-- The recognizer order that formatText actually implements. -/
def formatRecognizers : List Recognizer := [blankRec, chapterRec, titleRec, imageRec]

/-- First-match classification over an ordered recognizer list, the
dispatch shape the specification describes. -/
def firstMatchClassify : List Recognizer → (Str → Nat → List Str → FormattedSection) →
    Str → Nat → List Str → FormattedSection
  | [], dflt, t, i, ls => dflt t i ls
  | r :: rest, dflt, t, i, ls =>
    if r.accepts t i ls then r.emit t i ls else firstMatchClassify rest dflt t i ls

/-- Markdown for one block as the specification words it: hashes matching the
level for titles, a level-2 heading for chapters, raw text for paragraphs, an
image reference carrying the full-page suffix exactly for full-page images,
and the empty string for spacers. -/
def mdBlockSpec (sec : FormattedSection) : Str :=
  match sec.type with
  | .title => List.replicate (sec.level.getD 1) '#' ++ ' ' :: sec.content
  | .chapter => str "## " ++ sec.content
  | .paragraph => sec.content
  | .image =>
    match sec.metadata.bind SectionMeta.filename with
    | some k =>
      str "![" ++ k ++ str "](" ++ k ++ str ")" ++
        (if sec.metadata.bind SectionMeta.isFullPage = some true then
           str " \x7b.full-page\x7d"
         else [])
    | none => []
  | .spacer => []

/-- Blocks joined with a double line break, as the specification words it. -/
def mdRenderSpec (sections : List FormattedSection) : Str :=
  List.intercalate (str "\n\n") (sections.map mdBlockSpec)

def knownTemplates : List Str := [str "classic", str "modern", str "elegant", str "scifi"]

def knownFormats : List Str :=
  [str "html", str "jsx", str "markdown", str "txt", str "docx"]

end Ebook

namespace Ebook

/-! Helper lemmas. -/

theorem hasChar_append (c : Char) (a b : Str) :
    hasChar c (a ++ b) = (hasChar c a || hasChar c b) := by
  induction a with
  | nil => simp [hasChar]
  | cons d rest ih =>
    simp only [List.cons_append, hasChar, ih]
    by_cases h : d = c <;> simp [h, ih]

theorem hasChar_replaceChar_self {c : Char} {r : Str} (s : Str)
    (h : hasChar c r = false) :
    hasChar c (ExportUtility.replaceChar c r s) = false := by
  induction s with
  | nil => rfl
  | cons d rest ih =>
    simp only [ExportUtility.replaceChar]
    by_cases hd : d = c
    · simp [hd, hasChar_append, h, ih]
    · simp [hd, hasChar, ih]

theorem hasChar_replaceChar_other {c d : Char} {r : Str} (s : Str)
    (hs : hasChar d s = false) (hr : hasChar d r = false) :
    hasChar d (ExportUtility.replaceChar c r s) = false := by
  induction s with
  | nil => rfl
  | cons e rest ih =>
    simp only [hasChar] at hs
    by_cases he : e = d
    · rw [if_pos he] at hs
      cases hs
    · rw [if_neg he] at hs
      simp only [ExportUtility.replaceChar]
      by_cases hc : e = c
      · simp [hc, hasChar_append, hr, ih hs]
      · simp [hc, hasChar, he, ih hs]

theorem dropLit_self_append (pat r : Str) : dropLit pat (pat ++ r) = some r := by
  induction pat with
  | nil => rfl
  | cons c cs ih => simp [dropLit, ih]

theorem dropLit_eq_append {pat x r : Str} (h : dropLit pat x = some r) :
    x = pat ++ r := by
  induction pat generalizing x with
  | nil => simp [dropLit] at h; simp [h]
  | cons c cs ih =>
    cases x with
    | nil => simp [dropLit] at h
    | cons d ds =>
      simp only [dropLit] at h
      by_cases hd : d = c
      · rw [if_pos hd] at h
        rw [hd, List.cons_append, ih h]
      · rw [if_neg hd] at h
        exact absurd h (by simp)

theorem roman_not_digit {c : Char} (h : isRomanChar c = true) : c.isDigit = false := by
  simp only [isRomanChar, Bool.or_eq_true, decide_eq_true_eq] at h
  rcases h with ((((((h | h) | h) | h) | h) | h) | h) <;> subst h <;> decide

theorem mem_of_hasChar_false {q : Char} {l : Str} (h : hasChar q l = false) :
    ∀ c ∈ l, (!(c = q)) = true := by
  induction l with
  | nil => intro c hc; cases hc
  | cons d rest ih =>
    simp only [hasChar] at h
    by_cases hd : d = q
    · simp [hd] at h
    · intro c hc
      rcases List.mem_cons.mp hc with rfl | hc
      · simp [hd]
      · exact ih (by simpa [hd] using h) c hc

theorem takeWhile_append_left {p : Char → Bool} {xs : Str} {y : Char} (ys : Str)
    (h : ∀ c ∈ xs, p c = true) (hy : p y = false) :
    (xs ++ y :: ys).takeWhile p = xs := by
  induction xs with
  | nil => simp [List.takeWhile, hy]
  | cons c rest ih =>
    have hc : p c = true := h c (List.mem_cons_self c rest)
    simp only [List.cons_append, List.takeWhile_cons, hc, if_true]
    rw [ih (fun d hd => h d (List.mem_cons_of_mem c hd))]

theorem dropWhile_append_right {p : Char → Bool} {xs : Str} {y : Char} (ys : Str)
    (h : ∀ c ∈ xs, p c = true) (hy : p y = false) :
    (xs ++ y :: ys).dropWhile p = y :: ys := by
  induction xs with
  | nil => simp [List.dropWhile, hy]
  | cons c rest ih =>
    have hc : p c = true := h c (List.mem_cons_self c rest)
    simp only [List.cons_append, List.dropWhile_cons, hc, if_true]
    exact ih (fun d hd => h d (List.mem_cons_of_mem c hd))

theorem trim_eq_self {l : Str} (h1 : ∀ c, l.head? = some c → isWS c = false)
    (h2 : ∀ c, l.getLast? = some c → isWS c = false) : trim l = l := by
  have e1 : l.dropWhile isWS = l := by
    cases l with
    | nil => rfl
    | cons a t =>
      rw [List.dropWhile_cons, h1 a rfl]
      simp
  have e2 : l.reverse.dropWhile isWS = l.reverse := by
    cases hr : l.reverse with
    | nil => rfl
    | cons a t =>
      have ha : l.getLast? = some a := by
        rw [← List.head?_reverse, hr]; rfl
      rw [List.dropWhile_cons, h2 a ha]
      simp
  unfold trim
  rw [e1, e2, List.reverse_reverse]

theorem splitOnChar_eq_single {q : Char} {x : Str} (h : hasChar q x = false) :
    splitOnChar q x = [x] := by
  induction x with
  | nil => rfl
  | cons c rest ih =>
    simp only [hasChar] at h
    by_cases hc : c = q
    · simp [hc] at h
    · rw [if_neg hc] at h
      simp only [splitOnChar, ih h]
      simp [hc]

end Ebook

namespace Ebook

/-! Claim theorems. -/

/-- C5 (counterexample): the claim's blank-input law fails on
TextFormatter.formatText, which maps the empty manuscript to one spacer
block rather than an empty block sequence. -/
theorem c5_counterexample : TextFormatter.formatText (str "") ≠ [] := by decide

/-- C5 (amended): parseText maps the empty string and every
whitespace-only text to the empty block sequence, while
TextFormatter.formatText emits one spacer block per physical line of such
input (one for the empty string, three for two blank lines); both
detectors are total, so neither fails or throws. -/
theorem c5_blank_amended :
    (∀ t : Str, trim t = [] → parseText t = []) ∧
    TextFormatter.formatText (str "") =
      [⟨SType.spacer, [], none, none⟩] ∧
    TextFormatter.formatText (str "   \n  \n") =
      [⟨SType.spacer, [], none, none⟩, ⟨SType.spacer, [], none, none⟩,
       ⟨SType.spacer, [], none, none⟩] := by
  refine ⟨fun t h => ?_, by decide, by decide⟩
  simp [parseText, h]

/-- C5 (witness): the amended blank-input law applied to a concrete
whitespace-only text. -/
theorem c5_witness : trim (str " \n  ") = [] ∧ parseText (str " \n  ") = [] :=
  ⟨by decide, c5_blank_amended.1 (str " \n  ") (by decide)⟩

/-- C4 (counterexample): for the unknown template id gothic the HTML
renderer's template lookup silently returns the modern template's CSS
instead of signalling a TemplateNotFound condition. -/
theorem c4_counterexample :
    (str "gothic") ∉ knownTemplates ∧
    TextFormatter.getTemplateCSS (str "gothic") = TextFormatter.modernCSS := by
  exact ⟨by decide, rfl⟩

/-- C4 (amended): for every template identifier outside the known set
(classic, modern, elegant, scifi), getTemplateCSS silently falls back to
the modern template's CSS and renderToHTML still succeeds, emitting the
template class hook for the unknown id; no TemplateNotFound condition
exists in the code. -/
theorem c4_fallback_amended (t : Str) (h : t ∉ knownTemplates) :
    TextFormatter.getTemplateCSS t = TextFormatter.modernCSS ∧
    TextFormatter.renderToHTML t [] [] =
      str "<div class=\"template-" ++ t ++ str "\"></div>" := by
  simp only [knownTemplates, List.mem_cons, List.not_mem_nil, or_false] at h
  push_neg at h
  obtain ⟨h1, h2, h3, h4⟩ := h
  constructor
  · simp [TextFormatter.getTemplateCSS, h1, h2, h3, h4]
  · show str "<div class=\"template-" ++ t ++ str "\">" ++
      ([] : List Str).flatten ++ str "</div>" = _
    simp only [List.flatten_nil, List.append_nil, List.append_assoc]
    congr 1

/-- C4 (witness): the amended fallback behaviour at the concrete unknown
template id retro. -/
theorem c4_witness :
    (str "retro") ∉ knownTemplates ∧
    TextFormatter.getTemplateCSS (str "retro") = TextFormatter.modernCSS :=
  ⟨by decide, (c4_fallback_amended (str "retro") (by decide)).1⟩

/-- C3 (counterexample): TextFormatter.renderToHTML performs no escaping,
so rendering a paragraph block whose text is the probe string to HTML
produces an output containing a literal unescaped script tag, contrary to
the claim. -/
theorem c3_counterexample :
    isSubstr (str "<script>")
      (TextFormatter.renderToHTML (str "modern")
        [⟨SType.paragraph, str "<script>&\"'", none, none⟩] []) = true := by
  decide

/-- C3 (amended): the component/JSX export escapes via escapeJSX, whose
output never contains a literal angle bracket, double quote or brace, and
the DOCX-compatible HTML export escapes via escapeHTML, whose output never
contains a literal angle bracket, double quote or apostrophe; the JSX
rendering of the probe paragraph contains no literal script tag.  The
plain HTML renderer (renderToHTML), however, embeds block text unescaped. -/
theorem c3_escaping_amended :
    (∀ t : Str,
      hasChar '<' (ExportUtility.escapeJSX t) = false ∧
      hasChar '>' (ExportUtility.escapeJSX t) = false ∧
      hasChar '"' (ExportUtility.escapeJSX t) = false ∧
      hasChar '{' (ExportUtility.escapeJSX t) = false ∧
      hasChar '}' (ExportUtility.escapeJSX t) = false) ∧
    (∀ t : Str,
      hasChar '<' (ExportUtility.escapeHTML t) = false ∧
      hasChar '>' (ExportUtility.escapeHTML t) = false ∧
      hasChar '"' (ExportUtility.escapeHTML t) = false ∧
      hasChar '\'' (ExportUtility.escapeHTML t) = false) ∧
    isSubstr (str "<script>")
      (ExportUtility.jsxSectionsPart
        [⟨SType.paragraph, str "<script>&\"'", none, none⟩] []) = false := by
  refine ⟨fun t => ?_, fun t => ?_, by decide⟩
  · unfold ExportUtility.escapeJSX
    refine ⟨?_, ?_, ?_, ?_, ?_⟩
    · apply hasChar_replaceChar_other
      apply hasChar_replaceChar_other
      apply hasChar_replaceChar_other
      apply hasChar_replaceChar_other
      apply hasChar_replaceChar_self
      all_goals decide
    · apply hasChar_replaceChar_other
      apply hasChar_replaceChar_other
      apply hasChar_replaceChar_other
      apply hasChar_replaceChar_self
      all_goals decide
    · apply hasChar_replaceChar_other
      apply hasChar_replaceChar_other
      apply hasChar_replaceChar_self
      all_goals decide
    · apply hasChar_replaceChar_other
      apply hasChar_replaceChar_self
      all_goals decide
    · apply hasChar_replaceChar_self
      decide
  · unfold ExportUtility.escapeHTML
    refine ⟨?_, ?_, ?_, ?_⟩
    · apply hasChar_replaceChar_other
      apply hasChar_replaceChar_other
      apply hasChar_replaceChar_other
      apply hasChar_replaceChar_self
      all_goals decide
    · apply hasChar_replaceChar_other
      apply hasChar_replaceChar_other
      apply hasChar_replaceChar_self
      all_goals decide
    · apply hasChar_replaceChar_other
      apply hasChar_replaceChar_self
      all_goals decide
    · apply hasChar_replaceChar_self
      decide

/-- C9: the export dispatch succeeds exactly for the implemented formats
html, jsx, markdown, txt and docx, and for every other format value it
fails deterministically with the unsupported-format error naming that
value. -/
theorem c9_unsupported_format (opts : ExportUtility.ExportOptions) :
    ((ExportUtility.exportRun opts).isOk = true ↔ opts.format ∈ knownFormats) ∧
    (opts.format ∉ knownFormats →
      ExportUtility.exportRun opts =
        Except.error (str "Unsupported export format: " ++ opts.format)) := by
  constructor
  · unfold ExportUtility.exportRun
    split_ifs with h1 h2 h3 h4 h5 <;>
      simp [*, knownFormats, Except.isOk, Except.toBool]
  · intro h
    simp only [knownFormats, List.mem_cons, List.not_mem_nil, or_false, not_or] at h
    obtain ⟨h1, h2, h3, h4, h5⟩ := h
    unfold ExportUtility.exportRun
    simp [h1, h2, h3, h4, h5]

/-- C9 (witness): the dispatch at the concrete unimplemented format pdf
produces exactly the unsupported-format failure. -/
theorem c9_witness :
    (str "pdf") ∉ knownFormats ∧
    ExportUtility.exportRun
      { format := str "pdf", template := str "modern", sections := [] } =
      Except.error (str "Unsupported export format: " ++ str "pdf") :=
  ⟨by decide,
   (c9_unsupported_format
     { format := str "pdf", template := str "modern", sections := [] }).2
     (by decide)⟩

end Ebook

namespace Ebook

theorem detectChapter_level {t : Str} {cm : TextFormatter.ChapterMatch}
    (h : TextFormatter.detectChapter t = some cm) : cm.level = 1 := by
  unfold TextFormatter.detectChapter at h
  rw [Option.map_eq_some'] at h
  obtain ⟨g, -, hg⟩ := h
  rw [← hg]

theorem getTitleLevel_cases (t : Str) :
    TextFormatter.getTitleLevel t = 1 ∨ TextFormatter.getTitleLevel t = 2 ∨
    TextFormatter.getTitleLevel t = 3 := by
  unfold TextFormatter.getTitleLevel
  split_ifs <;> simp

theorem classifyLineFT_levels (lines : List Str) (i : Nat) (line : Str) :
    ((TextFormatter.classifyLineFT lines i line).type = SType.chapter →
      (TextFormatter.classifyLineFT lines i line).level = some 1) ∧
    ((TextFormatter.classifyLineFT lines i line).type = SType.title →
      ((TextFormatter.classifyLineFT lines i line).level = some 1 ∨
       (TextFormatter.classifyLineFT lines i line).level = some 2 ∨
       (TextFormatter.classifyLineFT lines i line).level = some 3)) ∧
    (((TextFormatter.classifyLineFT lines i line).type = SType.paragraph ∨
      (TextFormatter.classifyLineFT lines i line).type = SType.image ∨
      (TextFormatter.classifyLineFT lines i line).type = SType.spacer) →
      (TextFormatter.classifyLineFT lines i line).level = none) := by
  simp only [TextFormatter.classifyLineFT]
  split
  · simp
  · split
    · next cm heq => simp [detectChapter_level heq]
    · split
      · rcases getTitleLevel_cases (trim line) with h | h | h <;> simp [h]
      · split
        · simp
        · simp

/-- C10: every chapter section produced by formatText carries level exactly
1, every title section a level in one, two, three, and paragraph, image and
spacer sections carry no level. -/
theorem c10_level_invariant (raw : Str) (sec : FormattedSection)
    (h : sec ∈ TextFormatter.formatText raw) :
    (sec.type = SType.chapter → sec.level = some 1) ∧
    (sec.type = SType.title →
      (sec.level = some 1 ∨ sec.level = some 2 ∨ sec.level = some 3)) ∧
    ((sec.type = SType.paragraph ∨ sec.type = SType.image ∨
      sec.type = SType.spacer) → sec.level = none) := by
  simp only [TextFormatter.formatText, List.mem_map] at h
  obtain ⟨p, -, rfl⟩ := h
  exact classifyLineFT_levels _ _ _

/-- C10 (witness): the level invariant applied to the chapter section that
formatText produces for the bare numbered heading. -/
theorem c10_witness :
    (⟨SType.chapter, str "1.", some 1,
        some ⟨some (str "1"), some [], none, none⟩⟩ : FormattedSection)
      ∈ TextFormatter.formatText (str "1.") ∧
    (⟨SType.chapter, str "1.", some 1,
        some ⟨some (str "1"), some [], none, none⟩⟩ : FormattedSection).level =
      some 1 :=
  ⟨by decide, (c10_level_invariant (str "1.") _ (by decide)).1 rfl⟩

theorem classifyLineFT_eq_firstMatch (lines : List Str) (i : Nat) (line : Str) :
    TextFormatter.classifyLineFT lines i line =
      firstMatchClassify formatRecognizers paragraphFallback (trim line) i lines := by
  simp only [formatRecognizers, firstMatchClassify, blankRec, chapterRec, titleRec,
    imageRec, paragraphFallback, TextFormatter.classifyLineFT, spacerSection]
  by_cases he : (trim line).isEmpty
  · simp [he]
  · simp only [he, Bool.false_eq_true, if_false]
    cases hd : TextFormatter.detectChapter (trim line) with
    | some cm => simp [hd]
    | none =>
      simp [hd]

/-- C2 (counterexample): a line matching the image-placeholder syntax that
also satisfies the generic-title recognizer is classified by formatText as a
title, not as an image block, so the image recognizer does not precede the
heading recognizers. -/
theorem c2_counterexample :
    TextFormatter.isImageMarker (str "[IMAGE:COVER]") = true ∧
    isImagePlaceholder (str "[IMAGE:COVER]") = true ∧
    (TextFormatter.formatText (str "X\n[IMAGE:COVER]")).map FormattedSection.type =
      [SType.title, SType.title] := by
  decide

/-- C2 (amended): formatText classifies each line by first-match dispatch
over its recognizers in the fixed order blank-line, chapter-heading,
generic-title, image-placeholder, with paragraph as fallback — so the image
recognizer comes after the heading recognizers, and a line matching both is
classified as a heading or title; parseText, by contrast, tries its
image-placeholder recognizer first, so any line matching the image syntax is
classified as an image block there. -/
theorem c2_precedence_amended :
    (∀ raw : Str,
      TextFormatter.formatText raw =
        (splitOnChar '\n' raw).enum.map (fun p =>
          firstMatchClassify formatRecognizers paragraphFallback (trim p.2) p.1
            (splitOnChar '\n' raw))) ∧
    (∀ l : Str, isImagePlaceholder l = true → (classifyLineP6 l).type = BlockType.image) := by
  constructor
  · intro raw
    simp only [TextFormatter.formatText]
    exact List.map_congr_left (fun p _ => classifyLineFT_eq_firstMatch _ p.1 p.2)
  · intro l h
    simp [classifyLineP6, h]

/-- C2 (witness): the parseText image-first conjunct applied to a concrete
image placeholder line. -/
theorem c2_witness :
    isImagePlaceholder (str "[IMAGE:x]") = true ∧
    (classifyLineP6 (str "[IMAGE:x]")).type = BlockType.image :=
  ⟨by decide, c2_precedence_amended.2 (str "[IMAGE:x]") (by decide)⟩

end Ebook

namespace Ebook

/-- C6: the Markdown renderer maps each block to the string the claim
describes — hashes matching the title's level, a level-2 heading for
chapters, raw paragraph text, an image reference with the full-page suffix
exactly when the block is full-page, the empty string for spacers — and
joins the per-block strings with a double line break.  The hypotheses pin
the benign cases the table speaks about: title levels are not the JS-falsy
zero, and image blocks carry a non-empty key. -/
theorem c6_markdown_render (sections : List FormattedSection)
    (hl : ∀ sec ∈ sections, sec.type = SType.title → sec.level ≠ some 0)
    (hf : ∀ sec ∈ sections, sec.type = SType.image →
      ∃ f, sec.metadata.bind SectionMeta.filename = some f ∧ f ≠ []) :
    TextFormatter.exportAsMarkdown sections = mdRenderSpec sections := by
  unfold TextFormatter.exportAsMarkdown mdRenderSpec
  congr 1
  apply List.map_congr_left
  intro sec hs
  cases htype : sec.type with
  | title =>
    have hz := hl sec hs htype
    simp only [TextFormatter.mdSection, mdBlockSpec, htype]
    cases hlv : sec.level with
    | none => simp [jsOrLevel]
    | some n =>
      cases n with
      | zero => exact absurd hlv hz
      | succ m => simp [jsOrLevel]
  | chapter => simp [TextFormatter.mdSection, mdBlockSpec, htype]
  | paragraph => simp [TextFormatter.mdSection, mdBlockSpec, htype]
  | spacer => simp [TextFormatter.mdSection, mdBlockSpec, htype]
  | image =>
    obtain ⟨f, hfn, hne⟩ := hf sec hs htype
    simp only [TextFormatter.mdSection, mdBlockSpec, htype, hfn]
    have h1 : jsOrOptStr (some f) (str "Image") = f := by
      cases f with
      | nil => exact absurd rfl hne
      | cons c cs => rfl
    cases hfp : sec.metadata.bind SectionMeta.isFullPage with
    | none => simp [h1, interpOpt, optBoolTruthy]
    | some b => cases b <;> simp [h1, interpOpt, optBoolTruthy]

/-- C6 (witness): the Markdown rendering law applied to a concrete block
sequence containing a title, a chapter, a full-page image, a spacer and a
paragraph. -/
theorem c6_witness :
    TextFormatter.exportAsMarkdown
      [⟨SType.title, str "T", some 2, none⟩,
       ⟨SType.chapter, str "Chapter 1", some 1, none⟩,
       ⟨SType.image, str "i", none, some ⟨none, none, some true, some (str "pic.png")⟩⟩,
       ⟨SType.spacer, [], none, none⟩,
       ⟨SType.paragraph, str "Hello.", none, none⟩] =
    mdRenderSpec
      [⟨SType.title, str "T", some 2, none⟩,
       ⟨SType.chapter, str "Chapter 1", some 1, none⟩,
       ⟨SType.image, str "i", none, some ⟨none, none, some true, some (str "pic.png")⟩⟩,
       ⟨SType.spacer, [], none, none⟩,
       ⟨SType.paragraph, str "Hello.", none, none⟩] :=
  c6_markdown_render _ (by decide) (by decide)

theorem renderHTMLSection_missing {imgs : List (Str × Str)} {sec : FormattedSection}
    (htype : sec.type = SType.image)
    (hmiss : ∀ f, sec.metadata.bind SectionMeta.filename = some f →
      jsGet imgs f = none) :
    TextFormatter.renderHTMLSection imgs sec = [] := by
  simp only [TextFormatter.renderHTMLSection, htype]
  cases hfn : sec.metadata.bind SectionMeta.filename with
  | none => rfl
  | some f =>
    by_cases hfe : f.isEmpty
    · simp [hfe]
    · simp [hfe, hmiss f hfn]

theorem jsxSection_missing {imgs : List (Str × Str)} {sec : FormattedSection}
    (htype : sec.type = SType.image)
    (hmiss : ∀ f, sec.metadata.bind SectionMeta.filename = some f →
      jsGet imgs f = none) :
    ExportUtility.jsxSection imgs sec = [] := by
  simp only [ExportUtility.jsxSection, htype]
  cases hfn : sec.metadata.bind SectionMeta.filename with
  | none => rfl
  | some f =>
    by_cases hfe : f.isEmpty
    · simp [hfe]
    · simp [hfe, hmiss f hfn]

/-- C7: when an image block's key is absent from the supplied image map,
the HTML renderer and the component/JSX exporter complete normally, emit no
img element for that block, and render every other block exactly as they
would without it: the output equals the rendering of the sequence with that
block removed. -/
theorem c7_missing_image_keys (template : Str) (imgs : List (Str × Str))
    (pre post : List FormattedSection) (sec : FormattedSection)
    (htype : sec.type = SType.image)
    (hmiss : ∀ f, sec.metadata.bind SectionMeta.filename = some f →
      jsGet imgs f = none) :
    TextFormatter.renderToHTML template (pre ++ sec :: post) imgs =
      TextFormatter.renderToHTML template (pre ++ post) imgs ∧
    ExportUtility.jsxSectionsPart (pre ++ sec :: post) imgs =
      ExportUtility.jsxSectionsPart (pre ++ post) imgs ∧
    (∀ (fmt : Str) (fn : Option Str) (tpl : Str)
        (meta : Option ExportUtility.ExportMeta),
      ExportUtility.exportAsJSXContent ⟨fmt, fn, tpl, pre ++ sec :: post, imgs, meta⟩ =
        ExportUtility.exportAsJSXContent ⟨fmt, fn, tpl, pre ++ post, imgs, meta⟩) := by
  have hr : TextFormatter.renderHTMLSection imgs sec = [] :=
    renderHTMLSection_missing htype hmiss
  have hj : ExportUtility.jsxSection imgs sec = [] :=
    jsxSection_missing htype hmiss
  have hpart : ExportUtility.jsxSectionsPart (pre ++ sec :: post) imgs =
      ExportUtility.jsxSectionsPart (pre ++ post) imgs := by
    unfold ExportUtility.jsxSectionsPart
    simp [List.map_append, List.flatten_append, hj]
  refine ⟨?_, hpart, ?_⟩
  · unfold TextFormatter.renderToHTML
    simp [List.map_append, List.flatten_append, hr]
  · intro fmt fn tpl meta
    simp only [ExportUtility.exportAsJSXContent, hpart]

/-- C7 (witness): the missing-key law at a concrete sequence whose image
block references the key x while the image map is empty. -/
theorem c7_witness :
    TextFormatter.renderToHTML (str "modern")
      ([⟨SType.paragraph, str "Hi", none, none⟩] ++
        (⟨SType.image, str "[IMAGE:x]", none,
            some ⟨none, none, some false, some (str "x")⟩⟩ : FormattedSection) :: []) [] =
      TextFormatter.renderToHTML (str "modern")
        ([⟨SType.paragraph, str "Hi", none, none⟩] ++ []) [] ∧
    ExportUtility.exportAsJSXContent
      ⟨str "jsx", none, str "modern",
        [⟨SType.paragraph, str "Hi", none, none⟩] ++
          (⟨SType.image, str "[IMAGE:x]", none,
              some ⟨none, none, some false, some (str "x")⟩⟩ : FormattedSection) :: [],
        [], none⟩ =
      ExportUtility.exportAsJSXContent
        ⟨str "jsx", none, str "modern",
          [⟨SType.paragraph, str "Hi", none, none⟩] ++ [], [], none⟩ :=
  ⟨(c7_missing_image_keys (str "modern") [] [⟨SType.paragraph, str "Hi", none, none⟩]
      [] ⟨SType.image, str "[IMAGE:x]", none,
        some ⟨none, none, some false, some (str "x")⟩⟩ rfl
      (fun _ _ => rfl)).1,
   (c7_missing_image_keys (str "modern") [] [⟨SType.paragraph, str "Hi", none, none⟩]
      [] ⟨SType.image, str "[IMAGE:x]", none,
        some ⟨none, none, some false, some (str "x")⟩⟩ rfl
      (fun _ _ => rfl)).2.2 (str "jsx") none (str "modern") none⟩

end Ebook

namespace Ebook

theorem parseText_image_line (K : Str) (h1 : K ≠ [])
    (h2 : hasChar ']' K = false) (h3 : hasChar '\n' K = false) :
    (parseText (str "[IMAGE:" ++ K ++ str "]")).map
      (fun b => (b.type, b.imageUrl, b.fullPage)) =
    [(BlockType.image, some K, some false)] := by
  have hKne : K.isEmpty = false := by
    cases K with
    | nil => exact absurd rfl h1
    | cons c cs => rfl
  have hlast : (str "[IMAGE:" ++ (K ++ str "]")).getLast? = some ']' := by
    rw [← List.append_assoc]
    exact List.getLast?_concat _
  have htrim : trim (str "[IMAGE:" ++ (K ++ str "]")) =
      str "[IMAGE:" ++ (K ++ str "]") := by
    apply trim_eq_self
    · intro c hc
      simp only [show str "[IMAGE:" ++ (K ++ str "]") =
          '[' :: (str "IMAGE:" ++ (K ++ str "]")) from rfl,
        List.head?_cons, Option.some.injEq] at hc
      subst hc
      decide
    · intro c hc
      rw [hlast] at hc
      simp only [Option.some.injEq] at hc
      subst hc
      decide
  have hnl : hasChar '\n' (str "[IMAGE:" ++ (K ++ str "]")) = false := by
    rw [hasChar_append, hasChar_append, h3]
    decide
  have hsplit : splitOnChar '\n' (str "[IMAGE:" ++ (K ++ str "]")) =
      [str "[IMAGE:" ++ (K ++ str "]")] := splitOnChar_eq_single hnl
  have hline : (str "[IMAGE:" ++ (K ++ str "]")).isEmpty = false := rfl
  have htk : (K ++ str "]").takeWhile (fun d => !(d = ']')) = K :=
    takeWhile_append_left [] (mem_of_hasChar_false h2) (by decide)
  have hdk : (K ++ str "]").dropWhile (fun d => !(d = ']')) = [']'] :=
    dropWhile_append_right [] (mem_of_hasChar_false h2) (by decide)
  have hb : bracketTag (str "image") (str "[IMAGE:" ++ (K ++ str "]")) = true := by
    unfold bracketTag
    rw [htrim]
    show (!((K ++ str "]").takeWhile (fun d => !(d = ']'))).isEmpty &&
          decide ((K ++ str "]").dropWhile (fun d => !(d = ']')) = [']'])) = true
    rw [htk, hdk, hKne]
    decide
  have himg : isImagePlaceholder (str "[IMAGE:" ++ (K ++ str "]")) = true := by
    unfold isImagePlaceholder
    rw [hb]
    rfl
  have hmbg : matchBracketGeneric (str "[IMAGE:" ++ (K ++ str "]")) =
      some (str "IMAGE", K) := by
    unfold matchBracketGeneric
    show (if ((K ++ str "]").takeWhile (fun c => !(c = ']'))).isEmpty then none
          else if (K ++ str "]").dropWhile (fun c => !(c = ']')) = [']'] then
            some (str "IMAGE", (K ++ str "]").takeWhile (fun c => !(c = ']')))
          else none) = some (str "IMAGE", K)
    rw [htk, hdk, hKne]
    simp
  have hurl : (parseImagePlaceholder (str "[IMAGE:" ++ (K ++ str "]"))).url = K := by
    simp only [parseImagePlaceholder, htrim, hmbg]
  have hfp : (parseImagePlaceholder (str "[IMAGE:" ++ (K ++ str "]"))).fullPage =
      false := by
    simp only [parseImagePlaceholder, htrim, hmbg]
    decide
  rw [List.append_assoc]
  unfold parseText
  rw [htrim, hsplit]
  simp only [List.filterMap_cons, List.filterMap_nil, htrim, hline,
    Bool.false_eq_true, if_false]
  simp [classifyLineP6, himg, hurl, hfp]

end Ebook

namespace Ebook

theorem parseText_fullpage_line (K : Str) (h1 : K ≠ [])
    (h2 : hasChar ']' K = false) (h3 : hasChar '\n' K = false) :
    (parseText (str "[FULLPAGE:" ++ K ++ str "]")).map
      (fun b => (b.type, b.imageUrl, b.fullPage)) =
    [(BlockType.image, some K, some true)] := by
  have hKne : K.isEmpty = false := by
    cases K with
    | nil => exact absurd rfl h1
    | cons c cs => rfl
  have hlast : (str "[FULLPAGE:" ++ (K ++ str "]")).getLast? = some ']' := by
    rw [← List.append_assoc]
    exact List.getLast?_concat _
  have htrim : trim (str "[FULLPAGE:" ++ (K ++ str "]")) =
      str "[FULLPAGE:" ++ (K ++ str "]") := by
    apply trim_eq_self
    · intro c hc
      simp only [show str "[FULLPAGE:" ++ (K ++ str "]") =
          '[' :: (str "FULLPAGE:" ++ (K ++ str "]")) from rfl,
        List.head?_cons, Option.some.injEq] at hc
      subst hc
      decide
    · intro c hc
      rw [hlast] at hc
      simp only [Option.some.injEq] at hc
      subst hc
      decide
  have hnl : hasChar '\n' (str "[FULLPAGE:" ++ (K ++ str "]")) = false := by
    rw [hasChar_append, hasChar_append, h3]
    decide
  have hsplit : splitOnChar '\n' (str "[FULLPAGE:" ++ (K ++ str "]")) =
      [str "[FULLPAGE:" ++ (K ++ str "]")] := splitOnChar_eq_single hnl
  have hline : (str "[FULLPAGE:" ++ (K ++ str "]")).isEmpty = false := rfl
  have htk : (K ++ str "]").takeWhile (fun d => !(d = ']')) = K :=
    takeWhile_append_left [] (mem_of_hasChar_false h2) (by decide)
  have hdk : (K ++ str "]").dropWhile (fun d => !(d = ']')) = [']'] :=
    dropWhile_append_right [] (mem_of_hasChar_false h2) (by decide)
  have hb1 : bracketTag (str "image") (str "[FULLPAGE:" ++ (K ++ str "]")) = false := by
    unfold bracketTag
    rw [htrim]
    rfl
  have hb2 : bracketTag (str "fullpage") (str "[FULLPAGE:" ++ (K ++ str "]")) = true := by
    unfold bracketTag
    rw [htrim]
    show (!((K ++ str "]").takeWhile (fun d => !(d = ']'))).isEmpty &&
          decide ((K ++ str "]").dropWhile (fun d => !(d = ']')) = [']'])) = true
    rw [htk, hdk, hKne]
    decide
  have himg : isImagePlaceholder (str "[FULLPAGE:" ++ (K ++ str "]")) = true := by
    unfold isImagePlaceholder
    rw [hb1, hb2]
    rfl
  have hmbg : matchBracketGeneric (str "[FULLPAGE:" ++ (K ++ str "]")) =
      some (str "FULLPAGE", K) := by
    unfold matchBracketGeneric
    show (if ((K ++ str "]").takeWhile (fun c => !(c = ']'))).isEmpty then none
          else if (K ++ str "]").dropWhile (fun c => !(c = ']')) = [']'] then
            some (str "FULLPAGE", (K ++ str "]").takeWhile (fun c => !(c = ']')))
          else none) = some (str "FULLPAGE", K)
    rw [htk, hdk, hKne]
    simp
  have hurl : (parseImagePlaceholder (str "[FULLPAGE:" ++ (K ++ str "]"))).url = K := by
    simp only [parseImagePlaceholder, htrim, hmbg]
  have hfp : (parseImagePlaceholder (str "[FULLPAGE:" ++ (K ++ str "]"))).fullPage =
      true := by
    simp only [parseImagePlaceholder, htrim, hmbg]
    decide
  rw [List.append_assoc]
  unfold parseText
  rw [htrim, hsplit]
  simp only [List.filterMap_cons, List.filterMap_nil, htrim, hline,
    Bool.false_eq_true, if_false]
  simp [classifyLineP6, himg, hurl, hfp]

theorem formatText_image_line (K : Str) (h3 : hasChar '\n' K = false) :
    (TextFormatter.formatText (str "[IMAGE:" ++ K ++ str "]")).map
      FormattedSection.type = [SType.title] := by
  have hlast : (str "[IMAGE:" ++ (K ++ str "]")).getLast? = some ']' := by
    rw [← List.append_assoc]
    exact List.getLast?_concat _
  have htrim : trim (str "[IMAGE:" ++ (K ++ str "]")) =
      str "[IMAGE:" ++ (K ++ str "]") := by
    apply trim_eq_self
    · intro c hc
      simp only [show str "[IMAGE:" ++ (K ++ str "]") =
          '[' :: (str "IMAGE:" ++ (K ++ str "]")) from rfl,
        List.head?_cons, Option.some.injEq] at hc
      subst hc
      decide
    · intro c hc
      rw [hlast] at hc
      simp only [Option.some.injEq] at hc
      subst hc
      decide
  have hnl : hasChar '\n' (str "[IMAGE:" ++ (K ++ str "]")) = false := by
    rw [hasChar_append, hasChar_append, h3]
    decide
  have hsplit : splitOnChar '\n' (str "[IMAGE:" ++ (K ++ str "]")) =
      [str "[IMAGE:" ++ (K ++ str "]")] := splitOnChar_eq_single hnl
  have hline : (str "[IMAGE:" ++ (K ++ str "]")).isEmpty = false := rfl
  have hdc : TextFormatter.detectChapter (str "[IMAGE:" ++ (K ++ str "]")) = none := rfl
  have hti : TextFormatter.isTitle (str "[IMAGE:" ++ (K ++ str "]")) 0
      [str "[IMAGE:" ++ (K ++ str "]")] = true := rfl
  rw [List.append_assoc]
  simp only [TextFormatter.formatText]
  rw [hsplit]
  show [(TextFormatter.classifyLineFT [str "[IMAGE:" ++ (K ++ str "]")] 0
      (str "[IMAGE:" ++ (K ++ str "]"))).type] = [SType.title]
  simp only [TextFormatter.classifyLineFT, htrim, hline, Bool.false_eq_true,
    if_false, hdc, hti, if_true]

theorem formatText_fullpage_line (K : Str) (h3 : hasChar '\n' K = false) :
    (TextFormatter.formatText (str "[FULLPAGE:" ++ K ++ str "]")).map
      FormattedSection.type = [SType.title] := by
  have hlast : (str "[FULLPAGE:" ++ (K ++ str "]")).getLast? = some ']' := by
    rw [← List.append_assoc]
    exact List.getLast?_concat _
  have htrim : trim (str "[FULLPAGE:" ++ (K ++ str "]")) =
      str "[FULLPAGE:" ++ (K ++ str "]") := by
    apply trim_eq_self
    · intro c hc
      simp only [show str "[FULLPAGE:" ++ (K ++ str "]") =
          '[' :: (str "FULLPAGE:" ++ (K ++ str "]")) from rfl,
        List.head?_cons, Option.some.injEq] at hc
      subst hc
      decide
    · intro c hc
      rw [hlast] at hc
      simp only [Option.some.injEq] at hc
      subst hc
      decide
  have hnl : hasChar '\n' (str "[FULLPAGE:" ++ (K ++ str "]")) = false := by
    rw [hasChar_append, hasChar_append, h3]
    decide
  have hsplit : splitOnChar '\n' (str "[FULLPAGE:" ++ (K ++ str "]")) =
      [str "[FULLPAGE:" ++ (K ++ str "]")] := splitOnChar_eq_single hnl
  have hline : (str "[FULLPAGE:" ++ (K ++ str "]")).isEmpty = false := rfl
  have hdc : TextFormatter.detectChapter (str "[FULLPAGE:" ++ (K ++ str "]")) = none := rfl
  have hti : TextFormatter.isTitle (str "[FULLPAGE:" ++ (K ++ str "]")) 0
      [str "[FULLPAGE:" ++ (K ++ str "]")] = true := rfl
  rw [List.append_assoc]
  simp only [TextFormatter.formatText]
  rw [hsplit]
  show [(TextFormatter.classifyLineFT [str "[FULLPAGE:" ++ (K ++ str "]")] 0
      (str "[FULLPAGE:" ++ (K ++ str "]"))).type] = [SType.title]
  simp only [TextFormatter.classifyLineFT, htrim, hline, Bool.false_eq_true,
    if_false, hdc, hti, if_true]

/-- C1 (counterexample): on the one-line manuscript consisting exactly of
the image placeholder, TextFormatter.formatText yields one title block and
no image block — the title recognizer runs before the image recognizer, so
the claimed round trip fails for formatText. -/
theorem c1_counterexample :
    (TextFormatter.formatText (str "[IMAGE:K]")).map FormattedSection.type =
      [SType.title] := by
  decide

/-- C1 (amended): the image-syntax round trip holds for parseText — for
every non-empty key K containing no closing bracket and no newline, a
manuscript consisting exactly of one such placeholder line yields exactly
one image block whose stored key equals K and whose full-page flag is false
for IMAGE and true for FULLPAGE; TextFormatter.formatText, however,
classifies that sole line as a title block, because its generic-title
recognizer runs before its image recognizer. -/
theorem c1_roundtrip_amended (K : Str) (h1 : K ≠ [])
    (h2 : hasChar ']' K = false) (h3 : hasChar '\n' K = false) :
    ((parseText (str "[IMAGE:" ++ K ++ str "]")).map
        (fun b => (b.type, b.imageUrl, b.fullPage)) =
      [(BlockType.image, some K, some false)]) ∧
    ((parseText (str "[FULLPAGE:" ++ K ++ str "]")).map
        (fun b => (b.type, b.imageUrl, b.fullPage)) =
      [(BlockType.image, some K, some true)]) ∧
    ((TextFormatter.formatText (str "[IMAGE:" ++ K ++ str "]")).map
        FormattedSection.type = [SType.title]) ∧
    ((TextFormatter.formatText (str "[FULLPAGE:" ++ K ++ str "]")).map
        FormattedSection.type = [SType.title]) :=
  ⟨parseText_image_line K h1 h2 h3, parseText_fullpage_line K h1 h2 h3,
   formatText_image_line K h3, formatText_fullpage_line K h3⟩

/-- C1 (witness): the amended round trip at the concrete key photo1. -/
theorem c1_witness :
    ((str "photo1" : Str) ≠ [] ∧ hasChar ']' (str "photo1") = false ∧
      hasChar '\n' (str "photo1") = false) ∧
    (parseText (str "[IMAGE:" ++ str "photo1" ++ str "]")).map
        (fun b => (b.type, b.imageUrl, b.fullPage)) =
      [(BlockType.image, some (str "photo1"), some false)] :=
  ⟨⟨by decide, by decide, by decide⟩,
   (c1_roundtrip_amended (str "photo1") (by decide) (by decide) (by decide)).1⟩

end Ebook

namespace Ebook

theorem isImagePlaceholder_false_of_head {l : Str} {c : Char} {rest : Str}
    (htr : trim l = c :: rest) (hc : ¬ c = '[') : isImagePlaceholder l = false := by
  unfold isImagePlaceholder bracketTag
  rw [htr]
  simp [hc]

theorem nil_ne_of_head {b : Str} {y : Char} (hb : b.head? = some y) :
    ¬ ([] : Str) = b := fun e => by
  rw [← e] at hb
  exact Option.noConfusion hb

theorem ne_of_head_mismatch {a b : Str} {x y : Char} (ha : a.head? = some x)
    (hb : b.head? = some y) (hxy : ¬ x = y) : ¬ a = b := fun e => by
  rw [e, hb] at ha
  injection ha with h
  exact hxy h.symm

theorem classifyP6_chapter_of {l : Str} (himg : isImagePlaceholder l = false)
    (hch : isChapterHeading l = true) (hlv : getHeadingLevel l = 1) :
    (classifyLineP6 l).type = BlockType.chapter ∧
    (classifyLineP6 l).level = some 1 := by
  simp [classifyLineP6, himg, hch, hlv]

theorem classifyP6_exact_name {l name : Str} (htr : trim l = l)
    (h : lowerStr l = name)
    (hbr : ∀ c, name.head? = some c → ¬ c = '[')
    (hpat : chapterPatternsMatch name = true)
    (hid : lowerStr (trim name) = name) :
    classifyLineP6 l = ⟨BlockType.chapter, l, some (getHeadingLevel name),
      none, none, none⟩ := by
  rcases l with _ | ⟨c, t⟩
  · rw [show lowerStr ([] : Str) = [] from rfl] at h
    rw [← h] at hpat
    exact absurd hpat (by decide)
  · have hhead : name.head? = some c.toLower := by
      rw [← h]; rfl
    have hc : ¬ c = '[' := fun e => hbr _ hhead (by rw [e]; decide)
    have himg : isImagePlaceholder (c :: t) = false :=
      isImagePlaceholder_false_of_head htr hc
    have hch : isChapterHeading (c :: t) = true := by
      simp only [isChapterHeading]
      rw [htr, h, hpat]
      rfl
    have hlv : getHeadingLevel (c :: t) = getHeadingLevel name := by
      simp only [getHeadingLevel]
      rw [htr, h, hid]
    simp [classifyLineP6, himg, hch, hlv]

/-- C8 (counterexample): the formatText pipeline has no standalone-name
recognizer — the line prologue falls to the generic title heuristic and is
classified as a title with level 2, not as a heading with the table's
level 1. -/
theorem c8_counterexample :
    (TextFormatter.formatText (str "prologue")).map
      (fun s => (s.type, s.level)) = [(SType.title, some 2)] := by
  decide

/-- C8 (amended): for parseText, a trimmed input line equal
case-insensitively to one of the standalone section names is classified as
a chapter heading whose level follows the fixed priority table — prologue
and epilogue get level 1, introduction and preface level 2, acknowledgments
and about-the-author level 3 — and every line matching the chapter, part or
book patterns is classified as a chapter heading with level 1.  The
formatText pipeline does not implement this table (see the
counterexample). -/
theorem c8_heading_levels_amended (l : Str) (htr : trim l = l) :
    (lowerStr l = str "prologue" →
      classifyLineP6 l = ⟨BlockType.chapter, l, some 1, none, none, none⟩) ∧
    (lowerStr l = str "epilogue" →
      classifyLineP6 l = ⟨BlockType.chapter, l, some 1, none, none, none⟩) ∧
    (lowerStr l = str "introduction" →
      classifyLineP6 l = ⟨BlockType.chapter, l, some 2, none, none, none⟩) ∧
    (lowerStr l = str "preface" →
      classifyLineP6 l = ⟨BlockType.chapter, l, some 2, none, none, none⟩) ∧
    (lowerStr l = str "acknowledgments" →
      classifyLineP6 l = ⟨BlockType.chapter, l, some 3, none, none, none⟩) ∧
    (lowerStr l = str "about the author" →
      classifyLineP6 l = ⟨BlockType.chapter, l, some 3, none, none, none⟩) ∧
    ((reChapterNum (lowerStr l) || reChapterRoman (lowerStr l) ||
      rePartNum (lowerStr l) || rePartRoman (lowerStr l) ||
      reBookNum (lowerStr l) || reBookRoman (lowerStr l)) = true →
      (classifyLineP6 l).type = BlockType.chapter ∧
      (classifyLineP6 l).level = some 1) := by
  refine ⟨?_, ?_, ?_, ?_, ?_, ?_, ?_⟩
  · intro h
    rw [classifyP6_exact_name htr h (by decide) (by decide) (by decide)]
    rw [show getHeadingLevel (str "prologue") = 1 from by decide]
  · intro h
    rw [classifyP6_exact_name htr h (by decide) (by decide) (by decide)]
    rw [show getHeadingLevel (str "epilogue") = 1 from by decide]
  · intro h
    rw [classifyP6_exact_name htr h (by decide) (by decide) (by decide)]
    rw [show getHeadingLevel (str "introduction") = 2 from by decide]
  · intro h
    rw [classifyP6_exact_name htr h (by decide) (by decide) (by decide)]
    rw [show getHeadingLevel (str "preface") = 2 from by decide]
  · intro h
    rw [classifyP6_exact_name htr h (by decide) (by decide) (by decide)]
    rw [show getHeadingLevel (str "acknowledgments") = 3 from by decide]
  · intro h
    rw [classifyP6_exact_name htr h (by decide) (by decide) (by decide)]
    rw [show getHeadingLevel (str "about the author") = 3 from by decide]
  · intro hb
    simp only [Bool.or_eq_true] at hb
    rcases hb with ((((hb | hb) | hb) | hb) | hb) | hb
    · have hRe := hb
      unfold reChapterNum at hb
      rw [Option.isSome_iff_exists] at hb
      obtain ⟨r3, hb⟩ := hb
      rw [Option.bind_eq_some] at hb
      obtain ⟨r2, hb2, hd3⟩ := hb
      rw [Option.bind_eq_some] at hb2
      obtain ⟨r1, hr1, hw⟩ := hb2
      have hlow : lowerStr l = str "chapter" ++ r1 := dropLit_eq_append hr1
      rcases l with _ | ⟨c, t⟩
      · exact absurd hlow (nil_ne_of_head rfl)
      · have hc : ¬ c = '[' := by
          intro e
          rw [e] at hlow
          exact absurd hlow (ne_of_head_mismatch rfl rfl (by decide))
        have himg := isImagePlaceholder_false_of_head htr hc
        have hch : isChapterHeading (c :: t) = true := by
          simp only [isChapterHeading, chapterPatternsMatch]
          rw [htr, hRe]
          simp
        have hlv : getHeadingLevel (c :: t) = 1 := by
          simp only [getHeadingLevel]
          rw [htr, hRe]
          rfl
        exact classifyP6_chapter_of himg hch hlv
    · have hRe := hb
      unfold reChapterRoman at hb
      rw [Option.isSome_iff_exists] at hb
      obtain ⟨r3, hb⟩ := hb
      rw [Option.bind_eq_some] at hb
      obtain ⟨r2, hb2, hd3⟩ := hb
      rw [Option.bind_eq_some] at hb2
      obtain ⟨r1, hr1, hw⟩ := hb2
      have hlow : lowerStr l = str "chapter" ++ r1 := dropLit_eq_append hr1
      rcases r2 with _ | ⟨d, ds⟩
      · exact Option.noConfusion hd3
      · have hrom : isRomanChar d = true := by
          by_contra hh
          rw [Bool.not_eq_true] at hh
          simp [dropRoman1, hh] at hd3
        have hnum : reChapterNum (lowerStr l) = false := by
          unfold reChapterNum
          rw [hr1]
          rw [show (some r1).bind dropWs1 = dropWs1 r1 from rfl, hw]
          rw [show (some (d :: ds)).bind dropDigits1 = dropDigits1 (d :: ds) from rfl]
          simp [dropDigits1, roman_not_digit hrom]
        rcases l with _ | ⟨c, t⟩
        · exact absurd hlow (nil_ne_of_head rfl)
        · have hc : ¬ c = '[' := by
            intro e
            rw [e] at hlow
            exact absurd hlow (ne_of_head_mismatch rfl rfl (by decide))
          have himg := isImagePlaceholder_false_of_head htr hc
          have hch : isChapterHeading (c :: t) = true := by
            simp only [isChapterHeading, chapterPatternsMatch]
            rw [htr, hRe]
            simp
          have hlv : getHeadingLevel (c :: t) = 1 := by
            simp only [getHeadingLevel]
            rw [htr, hnum, hlow]
            rfl
          exact classifyP6_chapter_of himg hch hlv
    · have hRe := hb
      unfold rePartNum at hb
      rw [Option.isSome_iff_exists] at hb
      obtain ⟨r3, hb⟩ := hb
      rw [Option.bind_eq_some] at hb
      obtain ⟨r2, hb2, hd3⟩ := hb
      rw [Option.bind_eq_some] at hb2
      obtain ⟨r1, hr1, hw⟩ := hb2
      have hlow : lowerStr l = str "part" ++ r1 := dropLit_eq_append hr1
      rcases l with _ | ⟨c, t⟩
      · exact absurd hlow (nil_ne_of_head rfl)
      · have hc : ¬ c = '[' := by
          intro e
          rw [e] at hlow
          exact absurd hlow (ne_of_head_mismatch rfl rfl (by decide))
        have himg := isImagePlaceholder_false_of_head htr hc
        have hch : isChapterHeading (c :: t) = true := by
          simp only [isChapterHeading, chapterPatternsMatch]
          rw [htr, hRe]
          simp
        have hlv : getHeadingLevel (c :: t) = 1 := by
          simp only [getHeadingLevel]
          rw [htr, hlow]
          rw [show ((dropLit (str "part") (str "part" ++ r1) <|>
              dropLit (str "book") (str "part" ++ r1)).bind dropWs1) =
              dropWs1 r1 from rfl]
          rw [hw]
          rfl
        exact classifyP6_chapter_of himg hch hlv
    · have hRe := hb
      unfold rePartRoman at hb
      rw [Option.isSome_iff_exists] at hb
      obtain ⟨r3, hb⟩ := hb
      rw [Option.bind_eq_some] at hb
      obtain ⟨r2, hb2, hd3⟩ := hb
      rw [Option.bind_eq_some] at hb2
      obtain ⟨r1, hr1, hw⟩ := hb2
      have hlow : lowerStr l = str "part" ++ r1 := dropLit_eq_append hr1
      rcases l with _ | ⟨c, t⟩
      · exact absurd hlow (nil_ne_of_head rfl)
      · have hc : ¬ c = '[' := by
          intro e
          rw [e] at hlow
          exact absurd hlow (ne_of_head_mismatch rfl rfl (by decide))
        have himg := isImagePlaceholder_false_of_head htr hc
        have hch : isChapterHeading (c :: t) = true := by
          simp only [isChapterHeading, chapterPatternsMatch]
          rw [htr, hRe]
          simp
        have hlv : getHeadingLevel (c :: t) = 1 := by
          simp only [getHeadingLevel]
          rw [htr, hlow]
          rw [show ((dropLit (str "part") (str "part" ++ r1) <|>
              dropLit (str "book") (str "part" ++ r1)).bind dropWs1) =
              dropWs1 r1 from rfl]
          rw [hw]
          rfl
        exact classifyP6_chapter_of himg hch hlv
    · have hRe := hb
      unfold reBookNum at hb
      rw [Option.isSome_iff_exists] at hb
      obtain ⟨r3, hb⟩ := hb
      rw [Option.bind_eq_some] at hb
      obtain ⟨r2, hb2, hd3⟩ := hb
      rw [Option.bind_eq_some] at hb2
      obtain ⟨r1, hr1, hw⟩ := hb2
      have hlow : lowerStr l = str "book" ++ r1 := dropLit_eq_append hr1
      rcases l with _ | ⟨c, t⟩
      · exact absurd hlow (nil_ne_of_head rfl)
      · have hc : ¬ c = '[' := by
          intro e
          rw [e] at hlow
          exact absurd hlow (ne_of_head_mismatch rfl rfl (by decide))
        have himg := isImagePlaceholder_false_of_head htr hc
        have hch : isChapterHeading (c :: t) = true := by
          simp only [isChapterHeading, chapterPatternsMatch]
          rw [htr, hRe]
          simp
        have hlv : getHeadingLevel (c :: t) = 1 := by
          simp only [getHeadingLevel]
          rw [htr, hlow]
          rw [show ((dropLit (str "part") (str "book" ++ r1) <|>
              dropLit (str "book") (str "book" ++ r1)).bind dropWs1) =
              dropWs1 r1 from rfl]
          rw [hw]
          rfl
        exact classifyP6_chapter_of himg hch hlv
    · have hRe := hb
      unfold reBookRoman at hb
      rw [Option.isSome_iff_exists] at hb
      obtain ⟨r3, hb⟩ := hb
      rw [Option.bind_eq_some] at hb
      obtain ⟨r2, hb2, hd3⟩ := hb
      rw [Option.bind_eq_some] at hb2
      obtain ⟨r1, hr1, hw⟩ := hb2
      have hlow : lowerStr l = str "book" ++ r1 := dropLit_eq_append hr1
      rcases l with _ | ⟨c, t⟩
      · exact absurd hlow (nil_ne_of_head rfl)
      · have hc : ¬ c = '[' := by
          intro e
          rw [e] at hlow
          exact absurd hlow (ne_of_head_mismatch rfl rfl (by decide))
        have himg := isImagePlaceholder_false_of_head htr hc
        have hch : isChapterHeading (c :: t) = true := by
          simp only [isChapterHeading, chapterPatternsMatch]
          rw [htr, hRe]
          simp
        have hlv : getHeadingLevel (c :: t) = 1 := by
          simp only [getHeadingLevel]
          rw [htr, hlow]
          rw [show ((dropLit (str "part") (str "book" ++ r1) <|>
              dropLit (str "book") (str "book" ++ r1)).bind dropWs1) =
              dropWs1 r1 from rfl]
          rw [hw]
          rfl
        exact classifyP6_chapter_of himg hch hlv

/-- C8 (witness): the amended heading-level table at concrete lines. -/
theorem c8_witness :
    classifyLineP6 (str "Prologue") =
      ⟨BlockType.chapter, str "Prologue", some 1, none, none, none⟩ ∧
    classifyLineP6 (str "Introduction") =
      ⟨BlockType.chapter, str "Introduction", some 2, none, none, none⟩ ∧
    classifyLineP6 (str "Acknowledgments") =
      ⟨BlockType.chapter, str "Acknowledgments", some 3, none, none, none⟩ ∧
    (classifyLineP6 (str "Chapter 7")).type = BlockType.chapter ∧
    (classifyLineP6 (str "Chapter 7")).level = some 1 :=
  ⟨(c8_heading_levels_amended (str "Prologue") (by decide)).1 (by decide),
   (c8_heading_levels_amended (str "Introduction") (by decide)).2.2.1 (by decide),
   (c8_heading_levels_amended (str "Acknowledgments") (by decide)).2.2.2.2.1 (by decide),
   ((c8_heading_levels_amended (str "Chapter 7") (by decide)).2.2.2.2.2.2 (by decide)).1,
   ((c8_heading_levels_amended (str "Chapter 7") (by decide)).2.2.2.2.2.2 (by decide)).2⟩

end Ebook
